import Mathlib

/-!
Verification of the instrumented HTTP access layer and statistics subsystem

This file gives a shallow embedding of the statistics collectors
(`makeTimingReport`, `HttpStats`, `HttpCacheStats`, `AbandonedPackageStats`),
of the GitLab HTTP wrapper (pagination, 409 conflict retry, outcome
classification), and of the bundler `updateArtifacts` retry loop, together
with theorems settling the specified properties.

The statistics collectors and the GitLab HTTP wrapper ship in this repository
only through their test suites (`src/lib/util/stats.spec.ts`,
`src/lib/util/http/gitlab.spec.ts`); their implementation modules are not part
of the source tree here, so those components are modelled from the
specification text (and pinned, where the spec is open, by the expectations of
the in-tree tests).  The bundler artifact updater
(`src/lib/modules/manager/bundler/artifacts.ts`) is embedded from its source.
-/

/-! ## TimingReport -/

/-- Modelled from the spec: the shared `TimingReport` shape
`{count, totalMs, avgMs, medianMs, maxMs}` over a set of duration samples
(spec §4.5); the implementation module `src/lib/util/stats.ts` is not in the
source tree. -/
structure TimingReport where
  avgMs : Nat
  count : Nat
  maxMs : Nat
  medianMs : Nat
  totalMs : Nat
deriving Repr, DecidableEq

/-- Modelled from the spec: `makeTimingReport` (spec §4.5): `count = N`,
`totalMs = sum`, `avgMs = round(totalMs / N)` when `N > 0` else `0`,
`maxMs = max` (or `0` when `N = 0`), `medianMs` = the sample at index
`⌊N/2⌋` of the sorted list (the middle sample for odd `N`; for even `N` the
upper of the two middle samples, the convention pinned by the in-tree test
expectations), or `0` when `N = 0`.  `round` is JavaScript `Math.round`,
i.e. `⌊x + 1/2⌋` for the nonnegative values arising here, computed on
naturals as `(2·total + N) / (2·N)`. -/
def makeTimingReport (data : List Nat) : TimingReport :=
  let count := data.length
  let totalMs := data.sum
  let avgMs := if 0 < count then (2 * totalMs + count) / (2 * count) else 0
  let maxMs := data.foldr Nat.max 0
  let sorted := data.insertionSort (· ≤ ·)
  let medianMs := sorted.getD (count / 2) 0
  { avgMs := avgMs, count := count, maxMs := maxMs,
    medianMs := medianMs, totalMs := totalMs }

/-! ## URL parsing (shared by `HttpStats` and `HttpCacheStats`) -/

/-- A parsed URL, reduced to the three components the statistics collectors
use: `origin` (scheme plus host), `hostname`, and `pathname`. -/
structure ParsedUrl where
  origin : String
  hostname : String
  pathname : String
deriving Repr, DecidableEq

/-- Split a character list at the first occurrence of `"://"`, returning the
part before (the scheme) and the part after. -/
def breakOnScheme : List Char → Option (List Char × List Char)
  | [] => none
  | c :: rest =>
    if c = ':' ∧ rest.take 2 = ['/', '/'] then some ([], rest.drop 2)
    else (breakOnScheme rest).map (fun p => (c :: p.1, p.2))

/-- Modelled from the spec: the `parseUrl` helper used by the statistics
collectors (spec §3, §4.5: "a malformed URL is excluded / silently ignored");
the implementation module is not in the source tree.  Simplified WHATWG-style
parsing: a URL is well-formed iff it has the shape `scheme://host[/path]`
with a nonempty alphabetic scheme and a nonempty host; the pathname of a URL
without a path is `/`. -/
def parseUrl (url : String) : Option ParsedUrl :=
  match breakOnScheme url.toList with
  | none => none
  | some (scheme, rest) =>
    if scheme ≠ [] ∧ scheme.all Char.isAlpha then
      let host := rest.takeWhile (fun c => c ≠ '/')
      let path := rest.dropWhile (fun c => c ≠ '/')
      if host ≠ [] then
        some { origin := (scheme ++ ':' :: '/' :: '/' :: host).asString,
               hostname := host.asString,
               pathname := (if path = [] then ['/'] else path).asString }
      else none
    else none

/-- Lexicographic strict comparison of character lists by code point. -/
def charListLt : List Char → List Char → Bool
  | [], [] => false
  | [], _ :: _ => true
  | _ :: _, [] => false
  | a :: as, b :: bs =>
    if a.toNat < b.toNat then true
    else if b.toNat < a.toNat then false
    else charListLt as bs

/-- Lexicographic strict order on strings by code point. -/
def strLt (a b : String) : Bool := charListLt a.toList b.toList

/-- Lexicographic order on strings by code point. -/
def strLe (a b : String) : Bool := strLt a b || a == b

/-- Sorted deduplication of string keys (deterministic report ordering,
spec §4.5: "sorted deterministically by host, then URL, then method"). -/
def sortedDedupStr (l : List String) : List String :=
  (l.dedup).insertionSort (fun a b => strLe a b = true)

/-- Sorted deduplication of numeric keys (status codes). -/
def sortedDedupNat (l : List Nat) : List Nat :=
  (l.dedup).insertionSort (· ≤ ·)

/-! ## HttpStats -/

/-- One recorded HTTP request (spec §4.5: `{method, url, status, requestMs,
queueMs}`). -/
structure HttpRequestStatsDataPoint where
  method : String
  url : String
  reqMs : Nat
  queueMs : Nat
  status : Nat
deriving Repr, DecidableEq

/-- Per-host aggregate over request and queue durations (spec §4.5(c)). -/
structure HostStatsReport where
  count : Nat
  reqAvgMs : Nat
  reqMedianMs : Nat
  reqMaxMs : Nat
  queueAvgMs : Nat
  queueMedianMs : Nat
  queueMaxMs : Nat
deriving Repr, DecidableEq

namespace HttpStats

/-- Modelled from the spec: the `HttpStats` collector state is the ordered
list of every recorded request (spec §4.5: "records every request"). -/
abbrev State := List HttpRequestStatsDataPoint

/-- Modelled from the spec: `HttpStats.write` appends one data point. -/
def write (s : State) (d : HttpRequestStatsDataPoint) : State := s ++ [d]

/-- The data points whose URL parses; malformed URLs are skipped by the
report loop (spec §4.5: "Malformed URLs are excluded from (b)-(d)"). -/
def validPoints (s : State) : State :=
  s.filter fun d => (parseUrl d.url).isSome

/-- Hostname of a data point's URL (`""` for a malformed URL, which is
filtered out before this is consulted). -/
def pointHostname (d : HttpRequestStatsDataPoint) : String :=
  ((parseUrl d.url).map ParsedUrl.hostname).getD ""

/-- The key `origin ++ pathname` of a data point's URL (the per-URL report key). -/
def pointBaseUrl (d : HttpRequestStatsDataPoint) : String :=
  match parseUrl d.url with
  | some p => p.origin ++ p.pathname
  | none => ""

/-- Deterministic ordering of entries within one host: by URL, then method
(spec §4.5: "sorted deterministically by host, then URL, then method"). -/
def urlMethodLeB (a b : HttpRequestStatsDataPoint) : Bool :=
  strLt a.url b.url || (a.url == b.url && strLe a.method b.method)

/-- The boolean `urlMethodLeB` as a relation, for `insertionSort`. -/
def urlMethodLe (a b : HttpRequestStatsDataPoint) : Prop :=
  urlMethodLeB a b = true

instance : DecidableRel urlMethodLe := fun a b => by
  unfold urlMethodLe
  infer_instance

/-- Sorted hostnames occurring among well-formed data points. -/
def hostnames (s : State) : List String :=
  sortedDedupStr ((validPoints s).map pointHostname)

/-- Entries recorded for one host, sorted by URL then method (stable, so
entries with equal keys keep write order). -/
def hostEntries (s : State) (h : String) : List HttpRequestStatsDataPoint :=
  ((validPoints s).filter (fun d => pointHostname d == h)).insertionSort urlMethodLe

/-- Modelled from the spec: per-host lists of recorded entries
(spec §4.5(b)). -/
def hostRequests (s : State) : List (String × List HttpRequestStatsDataPoint) :=
  (hostnames s).map fun h => (h, hostEntries s h)

/-- Per-host aggregate `TimingReport` over request and queue durations
independently (spec §4.5(c)). -/
def hostAggregate (l : List HttpRequestStatsDataPoint) : HostStatsReport :=
  let req := makeTimingReport (l.map HttpRequestStatsDataPoint.reqMs)
  let queue := makeTimingReport (l.map HttpRequestStatsDataPoint.queueMs)
  { count := l.length,
    reqAvgMs := req.avgMs, reqMedianMs := req.medianMs, reqMaxMs := req.maxMs,
    queueAvgMs := queue.avgMs, queueMedianMs := queue.medianMs,
    queueMaxMs := queue.maxMs }

/-- Modelled from the spec: per-host aggregates (spec §4.5(c)). -/
def hosts (s : State) : List (String × HostStatsReport) :=
  (hostnames s).map fun h => (h, hostAggregate (hostEntries s h))

/-- Raw per-request log line `"METHOD URL STATUS REQms QUEUEms"`
(spec §4.5(a)). -/
def fmtLine (d : HttpRequestStatsDataPoint) : String :=
  d.method ++ " " ++ d.url ++ " " ++ toString d.status ++ " " ++
    toString d.reqMs ++ " " ++ toString d.queueMs

/-- Modelled from the spec: the raw request lines of the report, produced
from the per-host sorted entries (deterministic ordering, spec §4.5). -/
def rawRequests (s : State) : List String :=
  ((hostnames s).map fun h => (hostEntries s h).map fmtLine).flatten

/-- Sorted per-URL keys (`origin ++ pathname`) of well-formed data points. -/
def baseUrls (s : State) : List String :=
  sortedDedupStr ((validPoints s).map pointBaseUrl)

/-- Sorted methods recorded for one URL key. -/
def methodsFor (s : State) (u : String) : List String :=
  sortedDedupStr
    (((validPoints s).filter (fun d => pointBaseUrl d == u)).map
      HttpRequestStatsDataPoint.method)

/-- Sorted status codes recorded for one URL key and method. -/
def statusesFor (s : State) (u m : String) : List Nat :=
  sortedDedupNat
    (((validPoints s).filter
        (fun d => pointBaseUrl d == u && d.method == m)).map
      HttpRequestStatsDataPoint.status)

/-- Number of well-formed data points with the given URL key, method and
status. -/
def statusCount (s : State) (u m : String) (st : Nat) : Nat :=
  ((validPoints s).filter
    (fun d => pointBaseUrl d == u && d.method == m && d.status == st)).length

/-- Modelled from the spec: per-URL-per-method status-code histograms
(spec §4.5(d)). -/
def urls (s : State) : List (String × List (String × List (Nat × Nat))) :=
  (baseUrls s).map fun u =>
    (u, (methodsFor s u).map fun m =>
      (m, (statusesFor s u m).map fun st => (st, statusCount s u m st)))

/-- The full `HttpStats.getReport()` shape. -/
structure Report where
  hostRequests : List (String × List HttpRequestStatsDataPoint)
  hosts : List (String × HostStatsReport)
  rawRequests : List String
  requests : Nat
  urls : List (String × List (String × List (Nat × Nat)))
deriving Repr, DecidableEq

/-- Modelled from the spec: `HttpStats.getReport()` (spec §4.5): per-host
request lists, per-host aggregates, raw request lines, the total request
count (including malformed URLs), and per-URL-per-method status histograms. -/
def getReport (s : State) : Report :=
  { hostRequests := hostRequests s
    hosts := hosts s
    rawRequests := rawRequests s
    requests := s.length
    urls := urls s }

end HttpStats

/-! ## HttpCacheStats -/

/-- Per-URL cache counters `{hit, miss, localHit, localMiss}` (spec §3,
`UrlCacheCounters`). -/
structure HttpCacheHitStats where
  hit : Nat
  miss : Nat
  localHit : Nat
  localMiss : Nat
deriving Repr, DecidableEq

namespace HttpCacheStats

/-- Modelled from the spec: the collector state, an insertion-ordered
mapping from URL key (`origin ++ pathname`) to counters (spec §4.5). -/
abbrev State := List (String × HttpCacheHitStats)

/-- All-zero counters, the value a key starts from. -/
def emptyStats : HttpCacheHitStats :=
  { hit := 0, miss := 0, localHit := 0, localMiss := 0 }

/-- URL key used by the collector: `origin ++ pathname` of the parsed URL,
or `none` for a malformed URL. -/
def getBaseUrl (url : String) : Option String :=
  (parseUrl url).map fun p => p.origin ++ p.pathname

/-- Current counters for a key (all-zero when absent). -/
def read (s : State) (key : String) : HttpCacheHitStats :=
  ((s.lookup key).getD emptyStats)

/-- Store counters for a key: overwrite in place when present, append
otherwise (JavaScript object insertion-order semantics). -/
def writeKey : State → String → HttpCacheHitStats → State
  | [], key, v => [(key, v)]
  | (k, w) :: t, key, v =>
    if k = key then (k, v) :: t else (k, w) :: writeKey t key v

/-- Modelled from the spec: one counter increment; a malformed URL is
silently ignored — no entry, no error (spec §4.5). -/
def incField (f : HttpCacheHitStats → HttpCacheHitStats) (s : State)
    (url : String) : State :=
  match getBaseUrl url with
  | none => s
  | some key => writeKey s key (f (read s key))

/-- Modelled from the spec: `HttpCacheStats.incLocalHits`. -/
def incLocalHits : State → String → State :=
  incField fun c => { c with localHit := c.localHit + 1 }

/-- Modelled from the spec: `HttpCacheStats.incLocalMisses`. -/
def incLocalMisses : State → String → State :=
  incField fun c => { c with localMiss := c.localMiss + 1 }

/-- Modelled from the spec: `HttpCacheStats.incRemoteHits`. -/
def incRemoteHits : State → String → State :=
  incField fun c => { c with hit := c.hit + 1 }

/-- Modelled from the spec: `HttpCacheStats.incRemoteMisses`. -/
def incRemoteMisses : State → String → State :=
  incField fun c => { c with miss := c.miss + 1 }

/-- Modelled from the spec: `HttpCacheStats.getData()` — the collected
per-URL counters. -/
def getData (s : State) : State := s

/-- The four counter-increment operations. -/
inductive CacheOp where
  | localHit
  | localMiss
  | remoteHit
  | remoteMiss
deriving Repr, DecidableEq

/-- Apply one increment operation. -/
def applyOp (s : State) : CacheOp × String → State
  | (.localHit, u) => incLocalHits s u
  | (.localMiss, u) => incLocalMisses s u
  | (.remoteHit, u) => incRemoteHits s u
  | (.remoteMiss, u) => incRemoteMisses s u

/-- Run a sequence of increment operations from the empty collector. -/
def runOps (ops : List (CacheOp × String)) : State :=
  ops.foldl applyOp []

end HttpCacheStats

/-! ## LookupStats and PackageCacheStats -/

namespace LookupStats

/-- Modelled from the spec: `LookupStats` state — per free-form category, a
list of durations, kept in write order (spec §4.5). -/
abbrev State := List (String × Nat)

/-- Modelled from the spec: `LookupStats.write` appends one sample. -/
def write (s : State) (category : String) (duration : Nat) : State :=
  s ++ [(category, duration)]

/-- Modelled from the spec: `LookupStats.getReport()` — mapping category →
TimingReport; an empty collector reports as an empty mapping (spec §4.5). -/
def getReport (s : State) : List (String × TimingReport) :=
  (sortedDedupStr (s.map Prod.fst)).map fun k =>
    (k, makeTimingReport ((s.filter (fun p => p.1 == k)).map Prod.snd))

end LookupStats

namespace PackageCacheStats

/-- Modelled from the spec: `PackageCacheStats` state — the two fixed
buckets `get` and `set`, each a list of durations (spec §4.5). -/
abbrev State := List Nat × List Nat

/-- Modelled from the spec: `PackageCacheStats.getReport()` — both buckets
as TimingReports; the empty state reports both as all-zero, not omitted. -/
def getReport (s : State) : TimingReport × TimingReport :=
  (makeTimingReport s.1, makeTimingReport s.2)

end PackageCacheStats

/-! ## AbandonedPackageStats -/

/-- One abandonment record (spec §3, `AbandonmentRecord`). -/
structure AbandonedRecord where
  datasource : String
  packageName : String
  mostRecentTimestamp : String
deriving Repr, DecidableEq

namespace AbandonedPackageStats

/-- Modelled from the spec: the collector state — the append-only ordered
list of every write (spec §3, §4.5). -/
abbrev State := List AbandonedRecord

/-- Modelled from the spec: `AbandonedPackageStats.write` appends one
record. -/
def write (s : State) (ds pkg ts : String) : State :=
  s ++ [{ datasource := ds, packageName := pkg, mostRecentTimestamp := ts }]

/-- Modelled from the spec: `AbandonedPackageStats.getData()` — the full
ordered list. -/
def getData (s : State) : State := s

/-- The derived nested mapping datasource → packageName → timestamp, as an
insertion-ordered association list (JavaScript object semantics). -/
abbrev Report := List (String × List (String × String))

/-- Overwrite-or-append into the inner packageName → timestamp mapping. -/
def setInner : List (String × String) → String → String → List (String × String)
  | [], pkg, ts => [(pkg, ts)]
  | (k, v) :: t, pkg, ts =>
    if k = pkg then (k, ts) :: t else (k, v) :: setInner t pkg ts

/-- Overwrite-or-append into the nested mapping. -/
def setNested : Report → String → String → String → Report
  | [], ds, pkg, ts => [(ds, setInner [] pkg ts)]
  | (k, inner) :: t, ds, pkg, ts =>
    if k = ds then (k, setInner inner pkg ts) :: t
    else (k, inner) :: setNested t ds pkg ts

/-- Lookup in the nested mapping. -/
def lookupNested (m : Report) (ds pkg : String) : Option String :=
  match m.find? (fun kv => kv.1 == ds) with
  | none => none
  | some (_, inner) =>
    match inner.find? (fun kv => kv.1 == pkg) with
    | none => none
    | some (_, ts) => some ts

/-- Modelled from the spec: `AbandonedPackageStats.getReport()` — the
derived mapping datasource → packageName → most recent timestamp; later
writes overwrite the mapping (spec §3, §4.5). -/
def getReport (s : State) : Report :=
  s.foldl (fun m r => setNested m r.datasource r.packageName r.mostRecentTimestamp) []

/-- Replay a list of records through `write`, starting empty. -/
def replay (recs : List AbandonedRecord) : State :=
  recs.foldl (fun s r => write s r.datasource r.packageName r.mostRecentTimestamp) []

end AbandonedPackageStats

/-! ## report() logging contract -/

/-- Log severities of the structured logger (spec §6). -/
inductive LogLevel where
  | trace
  | debug
  | info
  | warn
deriving Repr, DecidableEq, BEq

/-- Payload of one `HttpStats.report()` log call. -/
inductive HttpLogData where
  | full (rawRequests : List String)
      (hostRequests : List (String × List HttpRequestStatsDataPoint))
  | urlsData (urls : List (String × List (String × List (Nat × Nat))))
  | summary (hosts : List (String × HostStatsReport)) (requests : Nat)
deriving Repr, DecidableEq

/-- Modelled from the spec: the log calls performed by `HttpStats.report()`.
On an empty collector it emits exactly one log call carrying the all-zero
aggregate (spec §4.5/§8: "report() on an empty HTTP/package-cache/lookup
collector triggers exactly one log call carrying an all-zero aggregate").
On a nonempty collector it emits two trace-severity calls (full
statistics, URL statistics) followed by the one debug-severity call with
the per-host aggregates and the total request count, as observed by the
in-tree test on a collector with four writes. -/
def HttpStats.reportCalls (s : HttpStats.State) :
    List (LogLevel × String × HttpLogData) :=
  if s = [] then
    [(.debug, "HTTP statistics", .summary (HttpStats.hosts s) s.length)]
  else
    [(.trace, "HTTP full statistics",
        .full (HttpStats.rawRequests s) (HttpStats.hostRequests s)),
     (.trace, "HTTP URL statistics", .urlsData (HttpStats.urls s)),
     (.debug, "HTTP statistics", .summary (HttpStats.hosts s) s.length)]

/-- Modelled from the spec: the log calls performed by
`LookupStats.report()`: one debug-severity call with the report,
unconditionally. -/
def LookupStats.reportCalls (s : LookupStats.State) :
    List (LogLevel × String × List (String × TimingReport)) :=
  [(.debug, "Lookup statistics", LookupStats.getReport s)]

/-- Modelled from the spec: the log calls performed by
`PackageCacheStats.report()`: one debug-severity call with both buckets,
unconditionally (the empty state logs the all-zero buckets, not nothing). -/
def PackageCacheStats.reportCalls (s : PackageCacheStats.State) :
    List (LogLevel × String × (TimingReport × TimingReport)) :=
  [(.debug, "Package cache statistics", PackageCacheStats.getReport s)]

/-- Modelled from the spec: the log calls performed by
`AbandonedPackageStats.report()`: one debug-severity call with the derived
mapping when it is nonempty, and no call at all when it is empty
(spec §4.5: the abandonment collector "emits nothing" when empty). -/
def AbandonedPackageStats.reportCalls (s : AbandonedPackageStats.State) :
    List (LogLevel × String × AbandonedPackageStats.Report) :=
  if AbandonedPackageStats.getReport s = [] then []
  else [(.debug, "Abandoned package statistics", AbandonedPackageStats.getReport s)]

/-! ## String helpers (substring search) -/

/-- Predicate `listStartsWith pat cs`: `pat` is an initial segment of `cs`. -/
def listStartsWith : List Char → List Char → Bool
  | [], _ => true
  | _ :: _, [] => false
  | p :: ps, c :: cs => p = c && listStartsWith ps cs

/-- Predicate `listHasSubstr pat cs`: `pat` occurs contiguously in `cs`. -/
def listHasSubstr (pat : List Char) : List Char → Bool
  | [] => listStartsWith pat []
  | c :: cs => listStartsWith pat (c :: cs) || listHasSubstr pat cs

/-- Predicate `strHasSubstr pat s`: JavaScript `s.includes(pat)`. -/
def strHasSubstr (pat s : String) : Bool :=
  listHasSubstr pat.toList s.toList

/-! ## GitLab HTTP wrapper -/

/-- One page fetch outcome seen by the pagination engine: a successful page
carrying its items and whether a `rel="next"` continuation link is present,
or a failed fetch. -/
inductive PageResponse (α : Type) where
  | ok (items : List α) (hasNext : Bool)
  | fail
deriving Repr, DecidableEq

/-- Modelled from the spec: the link-relation pagination engine of the
GitLab HTTP wrapper (spec §4.3; the implementation module
`src/lib/util/http/gitlab.ts` is not in the source tree).  The input list
is the sequence of fetch outcomes in fetch order; the engine fetches the
first page, and while a continuation link is present fetches the next page
and concatenates its items, catching any failure of the continuation: on a
mid-sequence failure it logs a "Pagination error" warning once and keeps
the partial result.  A failure of the very first fetch is raised to the
caller.  The result carries the accumulated items and the number of
warning log calls emitted. -/
def paginateChain {α : Type} : List (PageResponse α) → Except Unit (List α × Nat)
  | [] => .error ()
  | .fail :: _ => .error ()
  | .ok items hasNext :: rest =>
    if hasNext then
      match paginateChain rest with
      | .ok (more, warns) => .ok (items ++ more, warns)
      | .error _ => .ok (items, 1)
    else
      .ok (items, 0)

/-- One response to a mutating GitLab request. -/
inductive GitlabResponse where
  | success (status : Nat)
  | conflict (message : String)
  | clientError (status : Nat)
deriving Repr, DecidableEq

/-- A surfaced failure of a mutating GitLab request. -/
inductive GitlabMutFailure where
  | noResponse
  | conflictSurfaced (message : String)
  | errorSurfaced (status : Nat)
deriving Repr, DecidableEq

/-- Modelled from the spec: the transient-lock pattern — a conflict (409)
response message matching `Resource lock` (spec §4.4 "a known
transient-lock pattern"; the in-tree test uses the message
`409 Conflict: Resource lock`). -/
def isResourceLockMessage (msg : String) : Bool :=
  strHasSubstr "Resource lock" msg

/-- Modelled from the spec: the conflict-retry policy around one mutating
request (spec §4.4).  The input list is the sequence of responses the
transport would return to successive identical attempts; `retriesLeft` is
the number of additional attempts allowed (2 at the top level, for three
attempts total).  A success is the final result; a conflict whose message
matches the transient-lock pattern is retried while retries remain and is
surfaced once they are exhausted; any other response is surfaced
immediately.  The second component counts the attempts performed. -/
def attemptMutating : List GitlabResponse → Nat → Except GitlabMutFailure Nat × Nat
  | [], _ => (.error .noResponse, 0)
  | .success st :: _, _ => (.ok st, 1)
  | .conflict msg :: rest, retriesLeft =>
    if isResourceLockMessage msg ∧ 0 < retriesLeft then
      let r := attemptMutating rest (retriesLeft - 1)
      (r.1, r.2 + 1)
    else (.error (.conflictSurfaced msg), 1)
  | .clientError st :: _, _ => (.error (.errorSurfaced st), 1)

/-- Modelled from the spec: a mutating request (`postJson`) under the
conflict-retry policy: up to two additional attempts, three total. -/
def postJsonMutating (responses : List GitlabResponse) :
    Except GitlabMutFailure Nat × Nat :=
  attemptMutating responses 2

/-- Outcome of one raw transport exchange. -/
inductive TransportOutcome where
  | transportError (code : String)
  | response (status : Nat) (body : String)
deriving Repr, DecidableEq

/-- Failure kinds surfaced by the request executor (spec §4.1, §7):
the retryable external-host kind, or a client error surfaced verbatim
with status and body. -/
inductive RequestFailure where
  | externalHost
  | httpStatus (status : Nat) (body : String)
deriving Repr, DecidableEq

/-- Modelled from the spec: outcome classification of one request
(spec §4.1, §7): transport failures (DNS/socket) and 5xx responses map to
the external-host failure kind; other non-2xx statuses surface verbatim
with status and body; a successful response whose body fails structural
validation (`jsonValid`) maps to the external-host kind. -/
def classifyOutcome (jsonValid : String → Bool) :
    TransportOutcome → Except RequestFailure (Nat × String)
  | .transportError _ => .error .externalHost
  | .response st body =>
    if 500 ≤ st ∧ st < 600 then .error .externalHost
    else if 400 ≤ st then .error (.httpStatus st body)
    else if jsonValid body then .ok (st, body)
    else .error .externalHost

/-! ## Bundler `updateArtifacts` (src/lib/modules/manager/bundler/artifacts.ts) -/

/-- Split a character list into lines at `\r\n` or `\n` (the `newlineRegex`
of `src/lib/util/regex.ts`, `/\r?\n/`). -/
def splitNewlines : List Char → List (List Char)
  | [] => [[]]
  | '\r' :: '\n' :: rest => [] :: splitNewlines rest
  | '\n' :: rest => [] :: splitNewlines rest
  | c :: rest =>
    match splitNewlines rest with
    | [] => [[c]]
    | l :: ls => (c :: l) :: ls

/-- The literal tail of `resolvedPkgRegex`: `" was resolved to"`. -/
def litResolved : List Char := (" was resolved to").toList

/-- Match the literal after giving back up to `k` trailing whitespace
characters consumed by a greedy `\s*` (regex backtracking). -/
def litAfterWs : Nat → List Char → Bool
  | 0, cs => listStartsWith litResolved cs
  | k + 1, cs =>
    listStartsWith litResolved cs ||
      match cs with
      | c :: rest => c.isWhitespace && litAfterWs k rest
      | [] => false

/-- Match the optional group `\s*\([^)]+\)` of `resolvedPkgRegex`,
returning the remainder after the closing parenthesis. -/
def matchParenGroup (cs : List Char) : Option (List Char) :=
  match cs.dropWhile (fun c => c.isWhitespace) with
  | '(' :: rest =>
    let content := rest.takeWhile (fun c => c ≠ ')')
    match rest.dropWhile (fun c => c ≠ ')') with
    | ')' :: rest3 => if content = [] then none else some rest3
    | _ => none
  | _ => none

/-- Match the part of `resolvedPkgRegex` that follows the captured package
token: `(?:\s*\([^)]+\)\s*)? was resolved to`. -/
def matchTailAt (cs : List Char) : Bool :=
  listStartsWith litResolved cs ||
    (match matchParenGroup cs with
     | some rest => litAfterWs rest.length rest
     | none => false)

/-- Greedy `\S+` with backtracking: try the prefixes of the non-whitespace
token `tok` from length `i` downwards as the captured package name, the
rest of the line being `tok.drop length ++ rest`. -/
def trySplits (tok rest : List Char) : Nat → Option (List Char)
  | 0 => none
  | i + 1 =>
    if matchTailAt (tok.drop (i + 1) ++ rest) then some (tok.take (i + 1))
    else trySplits tok rest i

/-- First match of `resolvedPkgRegex`
(`/(?<pkg>\S+)(?:\s*\([^)]+\)\s*)? was resolved to/`) in a line, returning
the captured `pkg` group: leftmost start position wins, and at each
position the greedy `\S+` prefers the longest token prefix. -/
def findResolvedPkg : List Char → Option (List Char)
  | [] => none
  | c :: cs =>
    if c.isWhitespace then findResolvedPkg cs
    else
      let tok := (c :: cs).takeWhile (fun x => ¬ x.isWhitespace)
      let rest := (c :: cs).dropWhile (fun x => ¬ x.isWhitespace)
      match trySplits tok rest tok.length with
      | some pkg => some pkg
      | none => findResolvedPkg cs

/-- Deduplicate keeping first occurrences (`[...new Set(result)]`). -/
def dedupKeepFirst : List String → List String
  | [] => []
  | a :: t => a :: (dedupKeepFirst t).filter (fun x => x ≠ a)

/-- Function `getResolvedPackages` of `bundler/artifacts.ts`: the deduplicated
captured package names of the lines matching `resolvedPkgRegex`. -/
def getResolvedPackages (input : String) : List String :=
  dedupKeepFirst
    ((splitNewlines input.toList).filterMap
      (fun l => (findResolvedPkg l).map List.asString))

/-- Predicate `is.nonEmptyStringAndNotWhitespace`: nonempty and not whitespace-only. -/
def nonEmptyStringAndNotWhitespace (s : String) : Bool :=
  !(s.toList.all (fun c => c.isWhitespace))

/-- Constant `TEMPORARY_ERROR` of `constants/error-messages.ts` (module not in the
source tree; compared only by equality). -/
def TEMPORARY_ERROR : String := "temporary-error"

/-- Constant `BUNDLER_INVALID_CREDENTIALS` of `constants/error-messages.ts` (module
not in the source tree; compared only by equality). -/
def BUNDLER_INVALID_CREDENTIALS : String := "bundler-invalid-credentials"

/-- The configuration fields of `updateArtifact.config` that
`updateArtifacts` consults. -/
structure BundlerConfig where
  isLockFileMaintenance : Bool
deriving Repr, DecidableEq

/-- The `UpdateArtifact` argument, with `updatedDeps` reduced to the list
of `depName` values (the only part `updateArtifacts` reads from it). -/
structure BundlerUpdateArtifact where
  packageFileName : String
  updatedDeps : List String
  newPackageFileContent : String
  config : BundlerConfig
deriving Repr, DecidableEq

/-- The error object thrown by `exec`, reduced to the fields
`updateArtifacts` inspects. -/
structure ExecError where
  message : String
  stdout : String
  stderr : String
deriving Repr, DecidableEq

/-- Outcome of one `exec(commands, execOptions)` attempt. -/
inductive ExecOutcome where
  | ok
  | fail (err : ExecError)

/-- The effectful environment of `updateArtifacts`, as oracles: the memory
cache sentinel, the initial `Gemfile.lock` read, the outcome of the i-th
exec attempt, the repository status after a successful exec, and the
updated lock file contents. -/
structure BundlerEnv where
  existingError : Option String
  lockFileContent : Option String
  execResult : Nat → ExecOutcome
  lockModified : Bool
  newLockContent : String

/-- The observable result of `updateArtifacts`: a thrown error message, a
`null` result, the updated lock file, or an artifact error. -/
inductive ArtifactsResult where
  | thrown (message : String)
  | nullResult
  | updated (path : String) (contents : String)
  | artifactError (lockFile : String) (stderr : String)
deriving Repr, DecidableEq

/-- The lock file path for a package file (`getLockFilePath` lives in
`bundler/common.ts`, not in the source tree; the concrete mapping is
immaterial — it is only carried through to the result). -/
def lockFileNameOf (ua : BundlerUpdateArtifact) : String :=
  ua.packageFileName ++ ".lock"

/-- Shallow embedding of `updateArtifacts` of
`src/lib/modules/manager/bundler/artifacts.ts`: aborts on a cached
previous error, returns `null` without a lock file, runs the bundler
commands, and on an unknown exec failure extracts newly resolved package
names from the output; when the remaining-attempts counter is positive,
new names were found beyond `updatedDeps`, and lock-file-maintenance mode
is off, it reattempts with the expanded dependency set and
`recursionLimit - 1`.  The second component counts the exec attempts
performed. -/
def updateArtifactsModel (env : BundlerEnv) (ua : BundlerUpdateArtifact)
    (recursionLimit : Nat) (attemptIdx : Nat) : ArtifactsResult × Nat :=
  match env.existingError with
  | some msg => (.thrown msg, 0)
  | none =>
    match env.lockFileContent with
    | none => (.nullResult, 0)
    | some _ =>
      let updatedDepNames := ua.updatedDeps.filter nonEmptyStringAndNotWhitespace
      match env.execResult attemptIdx with
      | .ok =>
        if env.lockModified then
          (.updated (lockFileNameOf ua) env.newLockContent, 1)
        else (.nullResult, 1)
      | .fail err =>
        if err.message = TEMPORARY_ERROR then (.thrown TEMPORARY_ERROR, 1)
        else
          let output := err.stdout ++ "\n" ++ err.stderr
          if strHasSubstr "fatal: Could not parse object" err.message ||
              strHasSubstr "but that version could not be found" output then
            (.artifactError (lockFileNameOf ua) output, 1)
          else if strHasSubstr "Please supply credentials for this source" err.stdout ||
              strHasSubstr "Authentication is required" err.stderr ||
              strHasSubstr "Please make sure you have the correct access rights" err.stderr then
            (.thrown BUNDLER_INVALID_CREDENTIALS, 1)
          else
            let resolveMatches := (getResolvedPackages output).filter
              (fun depName => !(updatedDepNames.contains depName))
            if h : 0 < recursionLimit ∧ resolveMatches ≠ [] ∧
                ua.config.isLockFileMaintenance = false then
              let r := updateArtifactsModel env
                { ua with updatedDeps := ua.updatedDeps ++ resolveMatches }
                (recursionLimit - 1) (attemptIdx + 1)
              (r.1, r.2 + 1)
            else
              (.artifactError (lockFileNameOf ua) output, 1)
termination_by recursionLimit
decreasing_by exact Nat.sub_lt h.1 Nat.one_pos

/-- The write sequence of the in-tree `HttpStats` test exercising malformed
URLs (`src/lib/util/stats.spec.ts`, "writes data points"): four well-formed
requests and one with the malformed URL `<invalid>`. -/
def httpStatsC2Writes : HttpStats.State :=
  [{ method := "GET", url := "https://example.com/foo", reqMs := 100, queueMs := 10, status := 200 },
   { method := "GET", url := "https://example.com/foo", reqMs := 200, queueMs := 20, status := 200 },
   { method := "GET", url := "https://example.com/bar", reqMs := 400, queueMs := 40, status := 200 },
   { method := "GET", url := "https://example.com/foo", reqMs := 800, queueMs := 80, status := 404 },
   { method := "GET", url := "<invalid>", reqMs := 100, queueMs := 100, status := 400 }]

/-- The four well-formed writes of the in-tree `HttpStats` test: request
durations `[100,200,400,800]` and queue durations `[10,20,40,80]` on one
host (an even number of samples). -/
def httpStatsC10Writes : HttpStats.State :=
  [{ method := "GET", url := "https://example.com/foo", reqMs := 100, queueMs := 10, status := 200 },
   { method := "GET", url := "https://example.com/foo", reqMs := 200, queueMs := 20, status := 200 },
   { method := "GET", url := "https://example.com/bar", reqMs := 400, queueMs := 40, status := 200 },
   { method := "GET", url := "https://example.com/foo", reqMs := 800, queueMs := 80, status := 404 }]

/-- A sorted permutation of `data` is exactly `insertionSort` of `data`. -/
theorem sorted_perm_eq_insertionSort (data l : List Nat)
    (hp : l.Perm data) (hs : l.Sorted (· ≤ ·)) :
    l = data.insertionSort (· ≤ ·) := by
  refine List.eq_of_perm_of_sorted ?_ hs (List.sorted_insertionSort _ _)
  exact hp.trans (List.perm_insertionSort _ data).symm

/-- The value `foldr max 0` is an upper bound of the list. -/
theorem le_foldr_max (data : List Nat) : ∀ x ∈ data, x ≤ data.foldr Nat.max 0 := by
  induction data with
  | nil => intro x hx; cases hx
  | cons a t ih =>
    intro x hx
    rcases List.mem_cons.mp hx with rfl | hx
    · exact Nat.le_max_left x (t.foldr Nat.max 0)
    · exact le_trans (ih x hx) (Nat.le_max_right a (t.foldr Nat.max 0))

/-- The value `foldr max 0` is attained by a list element, or the list is empty and it is 0. -/
theorem foldr_max_mem (data : List Nat) : data.foldr Nat.max 0 ∈ 0 :: data := by
  induction data with
  | nil => simp
  | cons a t ih =>
    rcases Nat.le_total a (t.foldr Nat.max 0) with h | h
    · have he : (a :: t).foldr Nat.max 0 = t.foldr Nat.max 0 := by
        simp [Nat.max_eq_right h]
      rw [he]
      rcases List.mem_cons.mp ih with h0 | hmem
      · rw [h0]; simp
      · exact List.mem_cons_of_mem _ (List.mem_cons_of_mem _ hmem)
    · have he : (a :: t).foldr Nat.max 0 = a := by
        simp [Nat.max_eq_left h]
      rw [he]
      simp

/-- Nat-division rounding `(2a + n) / (2n)` is `round (a / n)` over `ℚ`. -/
theorem natRound_eq_round (a n : Nat) (hn : 0 < n) :
    (((2 * a + n) / (2 * n) : Nat) : ℤ) = round ((a : ℚ) / (n : ℚ)) := by
  have hn' : ((n : ℚ)) ≠ 0 := Nat.cast_ne_zero.mpr hn.ne'
  have h2n : (0 : ℚ) < ((2 * n : Nat) : ℚ) := by
    push_cast
    positivity
  have key : (a : ℚ) / (n : ℚ) + 1 / 2 = ((2 * a + n : Nat) : ℚ) / ((2 * n : Nat) : ℚ) := by
    push_cast
    field_simp
    ring
  rw [round_eq, key]
  have hnonneg : (0 : ℚ) ≤ ((2 * a + n : Nat) : ℚ) / ((2 * n : Nat) : ℚ) := by
    positivity
  rw [← Int.natCast_floor_eq_floor hnonneg,
    Nat.floor_div_eq_div (α := ℚ) (2 * a + n) (2 * n)]

/-- C1: for every finite list of duration samples, `makeTimingReport` returns
`count` = the list length, `totalMs` = the sum, `maxMs` = the maximum sample
(0 when empty), `avgMs` = round(totalMs/N) when N>0 and 0 otherwise, and
`medianMs` = the middle sorted sample when N is odd and 0 when N=0; in
particular `[100,200,400]`, `[]` and `[100]` yield the stated reports. -/
theorem claim_C1 :
    (∀ data : List Nat,
      (makeTimingReport data).count = data.length ∧
      (makeTimingReport data).totalMs = data.sum ∧
      ((makeTimingReport data).maxMs ∈ 0 :: data ∧
        ∀ x ∈ data, x ≤ (makeTimingReport data).maxMs) ∧
      (data.length = 0 → (makeTimingReport data).avgMs = 0) ∧
      (0 < data.length →
        ((makeTimingReport data).avgMs : ℤ) = round ((data.sum : ℚ) / (data.length : ℚ))) ∧
      (data.length = 0 → (makeTimingReport data).medianMs = 0) ∧
      (∀ l : List Nat, l.Perm data → l.Sorted (· ≤ ·) → data.length % 2 = 1 →
        (makeTimingReport data).medianMs = l.getD (data.length / 2) 0)) ∧
    makeTimingReport [100, 200, 400] =
      { avgMs := 233, count := 3, maxMs := 400, medianMs := 200, totalMs := 700 } ∧
    makeTimingReport [] =
      { avgMs := 0, count := 0, maxMs := 0, medianMs := 0, totalMs := 0 } ∧
    makeTimingReport [100] =
      { avgMs := 100, count := 1, maxMs := 100, medianMs := 100, totalMs := 100 } := by
  refine ⟨fun data => ⟨rfl, rfl, ⟨foldr_max_mem data, le_foldr_max data⟩, ?_, ?_, ?_, ?_⟩, by decide, by decide, by decide⟩
  · intro h
    simp [makeTimingReport, h]
  · intro h
    simp only [makeTimingReport, if_pos h]
    exact natRound_eq_round data.sum data.length h
  · intro h
    have : data = [] := List.length_eq_zero.mp h
    subst this
    rfl
  · intro l hp hs _
    rw [sorted_perm_eq_insertionSort data l hp hs]
    rfl

/-- Witness for C1 at concrete inputs. -/
theorem claim_C1_witness :
    (makeTimingReport [100, 200, 400]).medianMs = [100, 200, 400].getD (1 : Nat) 0 ∧
    ((makeTimingReport [100, 200, 400]).avgMs : ℤ) =
      round (((700 : Nat) : ℚ) / ((3 : Nat) : ℚ)) ∧
    (makeTimingReport []).medianMs = 0 := by
  have h := claim_C1
  have h1 := (h.1 [100, 200, 400]).2.2.2.2.2.2 [100, 200, 400]
    (List.Perm.refl _) (by simp) (by decide)
  have h2 := (h.1 [100, 200, 400]).2.2.2.2.1 (by decide)
  have h3 := (h.1 ([] : List Nat)).2.2.2.2.2.1 (by decide)
  refine ⟨by simpa using h1, by simpa using h2, h3⟩

/-! ## C2: malformed URLs in HttpStats -/

/-- Filtering the valid points is idempotent. -/
theorem validPoints_idem (s : HttpStats.State) :
    HttpStats.validPoints (HttpStats.validPoints s) = HttpStats.validPoints s := by
  unfold HttpStats.validPoints
  rw [List.filter_filter]
  simp

/-- Hostnames are computed from the valid points only. -/
theorem hostnames_validPoints (s : HttpStats.State) :
    HttpStats.hostnames (HttpStats.validPoints s) = HttpStats.hostnames s := by
  unfold HttpStats.hostnames
  rw [validPoints_idem]

/-- Per-host entries are computed from the valid points only. -/
theorem hostEntries_validPoints (s : HttpStats.State) (h : String) :
    HttpStats.hostEntries (HttpStats.validPoints s) h = HttpStats.hostEntries s h := by
  unfold HttpStats.hostEntries
  rw [validPoints_idem]

/-- Members of a per-host entry list are valid points. -/
theorem mem_hostEntries (s : HttpStats.State) (h : String)
    (d : HttpRequestStatsDataPoint) (hd : d ∈ HttpStats.hostEntries s h) :
    d ∈ HttpStats.validPoints s := by
  unfold HttpStats.hostEntries at hd
  have hmem := (List.perm_insertionSort HttpStats.urlMethodLe _).mem_iff.mp hd
  exact List.mem_of_mem_filter hmem

/-- C2 (amended): a request with a malformed URL is excluded from the
per-host request lists, the per-host timing aggregates, the per-URL
status-code histograms, *and* the raw per-request report lines of
`getReport()` (all four are functions of the well-formed data points only),
while the total request count still counts every write, malformed URLs
included. -/
theorem claim_C2_amended (s : HttpStats.State) (d : HttpRequestStatsDataPoint)
    (hbad : parseUrl d.url = none) :
    (HttpStats.getReport s).requests = s.length ∧
    (HttpStats.getReport s).hostRequests =
      (HttpStats.getReport (HttpStats.validPoints s)).hostRequests ∧
    (HttpStats.getReport s).hosts =
      (HttpStats.getReport (HttpStats.validPoints s)).hosts ∧
    (HttpStats.getReport s).urls =
      (HttpStats.getReport (HttpStats.validPoints s)).urls ∧
    (HttpStats.getReport s).rawRequests =
      (HttpStats.getReport (HttpStats.validPoints s)).rawRequests ∧
    d ∉ HttpStats.validPoints s ∧
    (∀ h l, (h, l) ∈ (HttpStats.getReport s).hostRequests → d ∉ l) := by
  refine ⟨rfl, ?_, ?_, ?_, ?_, ?_, ?_⟩
  · show HttpStats.hostRequests s = HttpStats.hostRequests (HttpStats.validPoints s)
    unfold HttpStats.hostRequests
    rw [hostnames_validPoints]
    refine List.map_congr_left fun h _ => ?_
    rw [hostEntries_validPoints]
  · show HttpStats.hosts s = HttpStats.hosts (HttpStats.validPoints s)
    unfold HttpStats.hosts
    rw [hostnames_validPoints]
    refine List.map_congr_left fun h _ => ?_
    rw [hostEntries_validPoints]
  · show HttpStats.urls s = HttpStats.urls (HttpStats.validPoints s)
    unfold HttpStats.urls HttpStats.baseUrls HttpStats.methodsFor
      HttpStats.statusesFor HttpStats.statusCount
    rw [validPoints_idem]
  · show HttpStats.rawRequests s = HttpStats.rawRequests (HttpStats.validPoints s)
    unfold HttpStats.rawRequests
    rw [hostnames_validPoints]
    refine congrArg _ (List.map_congr_left fun h _ => ?_)
    rw [hostEntries_validPoints]
  · intro hmem
    have := List.of_mem_filter hmem
    rw [hbad] at this
    simp at this
  · intro h l hmem hdl
    rcases List.mem_map.mp hmem with ⟨h', _, heq⟩
    have hl : l = HttpStats.hostEntries s h' := by
      cases heq
      rfl
    rw [hl] at hdl
    have hv : d ∈ HttpStats.validPoints s := mem_hostEntries s h' d hdl
    have hp := List.of_mem_filter hv
    rw [hbad] at hp
    simp at hp

/-- C2 counterexample: replaying the in-tree test's write sequence (four
well-formed requests plus one with URL `<invalid>`), the total request
count is 5 but the raw per-request log lines of `getReport()` are only the
four well-formed lines — no line mentions the malformed URL, contradicting
the claim that a malformed request "is included ... in the raw per-request
log lines". -/
theorem claim_C2_counterexample :
    (HttpStats.getReport httpStatsC2Writes).requests = 5 ∧
    (HttpStats.getReport httpStatsC2Writes).rawRequests =
      ["GET https://example.com/bar 200 400 40",
       "GET https://example.com/foo 200 100 10",
       "GET https://example.com/foo 200 200 20",
       "GET https://example.com/foo 404 800 80"] ∧
    ((HttpStats.getReport httpStatsC2Writes).rawRequests.all
      (fun line => !(strHasSubstr "<invalid>" line))) = true ∧
    ¬ (HttpStats.fmtLine
        { method := "GET", url := "<invalid>", reqMs := 100, queueMs := 100, status := 400 }
          ∈ (HttpStats.getReport httpStatsC2Writes).rawRequests) := by
  refine ⟨by decide, by decide, by decide, by decide⟩

/-- Witness for C2 (amended) at the in-tree test input. -/
theorem claim_C2_witness :
    parseUrl "<invalid>" = none ∧
    (HttpStats.getReport httpStatsC2Writes).requests = httpStatsC2Writes.length ∧
    { method := "GET", url := "<invalid>", reqMs := 100, queueMs := 100, status := 400 }
      ∉ HttpStats.validPoints httpStatsC2Writes := by
  have h := claim_C2_amended httpStatsC2Writes
    { method := "GET", url := "<invalid>", reqMs := 100, queueMs := 100, status := 400 }
    (by decide)
  exact ⟨by decide, h.1, h.2.2.2.2.2.1⟩

/-! ## C10: even-length median convention -/

/-- C10: for an even-length nonempty sample list the median used by the
per-host aggregates is the element at index `N/2` of the sorted samples
(the upper of the two middle values); the per-host aggregates are exactly
`makeTimingReport` over the host's request and queue durations; and the
in-tree test input (request durations `[100,200,400,800]`, queue durations
`[10,20,40,80]`) reports `reqMedianMs = 400` and `queueMedianMs = 40` —
neither 0 nor the mean of the two middle samples. -/
theorem claim_C10 :
    (∀ (data l : List Nat), l.Perm data → l.Sorted (· ≤ ·) →
      data.length % 2 = 0 → 0 < data.length →
      (makeTimingReport data).medianMs = l.getD (data.length / 2) 0) ∧
    (∀ (s : HttpStats.State) (h : String) (agg : HostStatsReport),
      (h, agg) ∈ HttpStats.hosts s →
      agg.reqMedianMs = (makeTimingReport
        ((HttpStats.hostEntries s h).map HttpRequestStatsDataPoint.reqMs)).medianMs ∧
      agg.queueMedianMs = (makeTimingReport
        ((HttpStats.hostEntries s h).map HttpRequestStatsDataPoint.queueMs)).medianMs) ∧
    HttpStats.hosts httpStatsC10Writes =
      [("example.com",
        { count := 4, reqAvgMs := 375, reqMedianMs := 400, reqMaxMs := 800,
          queueAvgMs := 38, queueMedianMs := 40, queueMaxMs := 80 })] ∧
    ((400 : Nat) ≠ 0 ∧ (400 : Nat) ≠ (200 + 400) / 2 ∧
      (40 : Nat) ≠ 0 ∧ (40 : Nat) ≠ (20 + 40) / 2) := by
  refine ⟨?_, ?_, by decide, by decide⟩
  · intro data l hp hs _ _
    rw [sorted_perm_eq_insertionSort data l hp hs]
    rfl
  · intro s h agg hmem
    rcases List.mem_map.mp hmem with ⟨h', _, heq⟩
    cases heq
    exact ⟨rfl, rfl⟩

/-- Witness for C10: the general even-length median law applied at the
sorted request durations of the test input, and the aggregate law applied
at the test state. -/
theorem claim_C10_witness :
    (makeTimingReport [100, 200, 400, 800]).medianMs = [100, 200, 400, 800].getD (2 : Nat) 0 ∧
    (HttpStats.hostAggregate (HttpStats.hostEntries httpStatsC10Writes "example.com")).reqMedianMs =
      (makeTimingReport
        ((HttpStats.hostEntries httpStatsC10Writes "example.com").map
          HttpRequestStatsDataPoint.reqMs)).medianMs := by
  have h1 := claim_C10.1 [100, 200, 400, 800] [100, 200, 400, 800]
    (List.Perm.refl _) (by simp) (by decide) (by decide)
  have h2 := (claim_C10.2.1 httpStatsC10Writes "example.com"
    (HttpStats.hostAggregate (HttpStats.hostEntries httpStatsC10Writes "example.com"))
    (by decide)).1
  exact ⟨by simpa using h1, h2⟩

/-! ## C6: HttpCacheStats ignores malformed URLs -/

/-- Each increment operation leaves the state unchanged on a malformed URL. -/
theorem applyOp_malformed (s : HttpCacheStats.State)
    (p : HttpCacheStats.CacheOp × String) (hbad : parseUrl p.2 = none) :
    HttpCacheStats.applyOp s p = s := by
  rcases p with ⟨op, u⟩
  cases op <;>
    simp [HttpCacheStats.applyOp, HttpCacheStats.incLocalHits,
      HttpCacheStats.incLocalMisses, HttpCacheStats.incRemoteHits,
      HttpCacheStats.incRemoteMisses, HttpCacheStats.incField,
      HttpCacheStats.getBaseUrl, hbad]

/-- C6: each of the four counter-increment operations invoked with a
malformed URL returns the state unchanged, and a whole sequence of
increments on malformed URLs leaves `getData()` equal to the empty
mapping — no entry is ever created. -/
theorem claim_C6 :
    (∀ (s : HttpCacheStats.State) (url : String), parseUrl url = none →
      HttpCacheStats.incLocalHits s url = s ∧
      HttpCacheStats.incLocalMisses s url = s ∧
      HttpCacheStats.incRemoteHits s url = s ∧
      HttpCacheStats.incRemoteMisses s url = s) ∧
    (∀ ops : List (HttpCacheStats.CacheOp × String),
      (∀ p ∈ ops, parseUrl p.2 = none) →
      HttpCacheStats.getData (HttpCacheStats.runOps ops) = []) := by
  constructor
  · intro s url hbad
    exact ⟨applyOp_malformed s (.localHit, url) hbad,
      applyOp_malformed s (.localMiss, url) hbad,
      applyOp_malformed s (.remoteHit, url) hbad,
      applyOp_malformed s (.remoteMiss, url) hbad⟩
  · intro ops hops
    show (ops.foldl HttpCacheStats.applyOp []) = []
    have key : ∀ (l : List (HttpCacheStats.CacheOp × String)) (s : HttpCacheStats.State),
        (∀ p ∈ l, parseUrl p.2 = none) → l.foldl HttpCacheStats.applyOp s = s := by
      intro l
      induction l with
      | nil => intro s _; rfl
      | cons p t ih =>
        intro s hl
        have h1 : HttpCacheStats.applyOp s p = s :=
          applyOp_malformed s p (hl p (List.mem_cons_self _ _))
        simp only [List.foldl_cons, h1]
        exact ih s (fun q hq => hl q (List.mem_cons_of_mem _ hq))
    exact key ops [] hops

/-- Witness for C6 at the in-tree test's malformed URL `<invalid>`. -/
theorem claim_C6_witness :
    HttpCacheStats.incLocalHits [] "<invalid>" = [] ∧
    HttpCacheStats.getData
      (HttpCacheStats.runOps [(.localHit, "<invalid>"), (.remoteMiss, "<invalid>")]) = [] := by
  have h1 := (claim_C6.1 [] "<invalid>" (by decide)).1
  have h2 := claim_C6.2 [(.localHit, "<invalid>"), (.remoteMiss, "<invalid>")]
    (by intro p hp; fin_cases hp <;> decide)
  exact ⟨h1, h2⟩

/-! ## C7: AbandonedPackageStats list and mapping -/

/-- Lookup in `setInner` finds the new timestamp at the written key and is
unchanged elsewhere. -/
theorem find_setInner (inner : List (String × String)) (pkg ts pkg' : String) :
    ((AbandonedPackageStats.setInner inner pkg ts).find? (fun kv => kv.1 == pkg')).map Prod.snd =
      if pkg' = pkg then some ts
      else (inner.find? (fun kv => kv.1 == pkg')).map Prod.snd := by
  induction inner with
  | nil =>
    by_cases h : pkg' = pkg
    · subst h
      simp [AbandonedPackageStats.setInner, List.find?]
    · have hb : (pkg == pkg') = false :=
        beq_eq_false_iff_ne.mpr (fun hh => h hh.symm)
      simp [AbandonedPackageStats.setInner, List.find?, hb, h]
  | cons kv t ih =>
    rcases kv with ⟨k, v⟩
    by_cases hk : k = pkg
    · subst hk
      by_cases h : pkg' = k
      · subst h
        simp [AbandonedPackageStats.setInner, List.find?]
      · have hb : (k == pkg') = false :=
          beq_eq_false_iff_ne.mpr (fun hh => h hh.symm)
        simp [AbandonedPackageStats.setInner, List.find?, hb, h]
    · by_cases h : pkg' = k
      · have hb : (k == pkg') = true := beq_iff_eq.mpr h.symm
        have hn : ¬ (pkg' = pkg) := fun hh => hk (h.symm.trans hh)
        simp [AbandonedPackageStats.setInner, hk, List.find?, hb, hn]
      · have hb : (k == pkg') = false :=
          beq_eq_false_iff_ne.mpr (fun hh => h hh.symm)
        simp only [AbandonedPackageStats.setInner, if_neg hk, List.find?, hb]
        exact ih


/-- Rewriting `lookupNested` with `Option` combinators. -/
theorem lookupNested_eq (m : AbandonedPackageStats.Report) (ds' pkg' : String) :
    AbandonedPackageStats.lookupNested m ds' pkg' =
      ((m.find? (fun kv => kv.1 == ds')).map Prod.snd).bind
        (fun inner => (inner.find? (fun kv => kv.1 == pkg')).map Prod.snd) := by
  unfold AbandonedPackageStats.lookupNested
  rcases hf : m.find? (fun kv => kv.1 == ds') with _ | ⟨a, inner⟩
  · simp [hf]
  · simp only [hf, Option.map_some', Option.some_bind]
    rcases hg : inner.find? (fun kv => kv.1 == pkg') with _ | ⟨b, ts⟩ <;> simp [hg]

/-- Lookup of the outer key in `setNested`: the written datasource maps to
`setInner` of its previous inner mapping (empty when absent); other keys
are unchanged. -/
theorem find_setNested (m : AbandonedPackageStats.Report) (ds pkg ts ds' : String) :
    ((AbandonedPackageStats.setNested m ds pkg ts).find?
        (fun kv => kv.1 == ds')).map Prod.snd =
      if ds' = ds then
        some (AbandonedPackageStats.setInner
          (((m.find? (fun kv => kv.1 == ds)).map Prod.snd).getD []) pkg ts)
      else (m.find? (fun kv => kv.1 == ds')).map Prod.snd := by
  induction m with
  | nil =>
    by_cases h : ds' = ds
    · subst h
      simp [AbandonedPackageStats.setNested, List.find?]
    · have hb : (ds == ds') = false :=
        beq_eq_false_iff_ne.mpr (fun hh => h hh.symm)
      simp [AbandonedPackageStats.setNested, List.find?, hb, h]
  | cons kv t ih =>
    rcases kv with ⟨k, inner⟩
    by_cases hk : k = ds
    · subst hk
      by_cases h : ds' = k
      · subst h
        simp [AbandonedPackageStats.setNested, List.find?]
      · have hb : (k == ds') = false :=
          beq_eq_false_iff_ne.mpr (fun hh => h hh.symm)
        simp [AbandonedPackageStats.setNested, List.find?, hb, h]
    · by_cases h : ds' = k
      · have hb : (k == ds') = true := beq_iff_eq.mpr h.symm
        have hb2 : (k == ds) = false := beq_eq_false_iff_ne.mpr hk
        have hn : ¬ (ds' = ds) := fun hh => hk (h.symm.trans hh)
        simp [AbandonedPackageStats.setNested, hk, List.find?, hb, hb2, hn]
      · have hb : (k == ds') = false :=
          beq_eq_false_iff_ne.mpr (fun hh => h hh.symm)
        by_cases hkd : (k == ds) = true
        · exact absurd (beq_iff_eq.mp hkd) hk
        · have hb2 : (k == ds) = false := by
            cases hcc : (k == ds)
            · rfl
            · exact absurd hcc hkd
          simp only [AbandonedPackageStats.setNested, if_neg hk, List.find?, hb, hb2]
          exact ih

/-- Lookup in `setNested` finds the new timestamp at the written key pair
and is unchanged elsewhere. -/
theorem lookupNested_setNested (m : AbandonedPackageStats.Report)
    (ds pkg ts ds' pkg' : String) :
    AbandonedPackageStats.lookupNested
        (AbandonedPackageStats.setNested m ds pkg ts) ds' pkg' =
      if ds' = ds ∧ pkg' = pkg then some ts
      else AbandonedPackageStats.lookupNested m ds' pkg' := by
  rw [lookupNested_eq, lookupNested_eq, find_setNested]
  by_cases h : ds' = ds
  · subst h
    by_cases hp : pkg' = pkg
    · simp [hp, find_setInner]
    · rcases hfind : m.find? (fun kv => kv.1 == ds') with _ | ⟨a, inner⟩
      · have hb : (pkg == pkg') = false :=
          beq_eq_false_iff_ne.mpr (fun hh => hp hh.symm)
        simp [hp, find_setInner, hfind, List.find?, hb]
      · simp [hp, find_setInner, hfind]
  · simp [h]

/-- Replaying writes from the empty collector accumulates exactly the
written records, in order. -/
theorem replay_append (recs : List AbandonedRecord) (s : AbandonedPackageStats.State) :
    recs.foldl (fun acc r => AbandonedPackageStats.write acc
      r.datasource r.packageName r.mostRecentTimestamp) s = s ++ recs := by
  induction recs generalizing s with
  | nil => simp
  | cons r t ih =>
    simp only [List.foldl_cons]
    rw [ih]
    simp [AbandonedPackageStats.write]

/-- Computing `getReport` of one more record updates the nested mapping. -/
theorem getReport_snoc (l : List AbandonedRecord) (r : AbandonedRecord) :
    AbandonedPackageStats.getReport (l ++ [r]) =
      AbandonedPackageStats.setNested (AbandonedPackageStats.getReport l)
        r.datasource r.packageName r.mostRecentTimestamp := by
  unfold AbandonedPackageStats.getReport
  rw [List.foldl_append]
  rfl

/-- C7: replaying any sequence of `write` calls, `getData()` returns every
written record in write order, while the derived report maps each
`(datasource, packageName)` pair to the timestamp of its most recent
record (and to nothing when the pair was never written). -/
theorem claim_C7 :
    ∀ (recs : List AbandonedRecord) (ds pkg : String),
      AbandonedPackageStats.getData (AbandonedPackageStats.replay recs) = recs ∧
      AbandonedPackageStats.lookupNested (AbandonedPackageStats.getReport recs) ds pkg =
        ((recs.filter (fun r => r.datasource == ds && r.packageName == pkg)).getLast?).map
          AbandonedRecord.mostRecentTimestamp := by
  intro recs ds pkg
  constructor
  · show AbandonedPackageStats.replay recs = recs
    unfold AbandonedPackageStats.replay
    rw [replay_append]
    rfl
  · induction recs using List.reverseRecOn with
    | nil => rfl
    | append_singleton l r ih =>
      rw [getReport_snoc, lookupNested_setNested, List.filter_append]
      by_cases hmatch : r.datasource = ds ∧ r.packageName = pkg
      · have hb : (r.datasource == ds && r.packageName == pkg) = true := by
          simp [hmatch.1, hmatch.2]
        have hcond : ds = r.datasource ∧ pkg = r.packageName :=
          ⟨hmatch.1.symm, hmatch.2.symm⟩
        rw [if_pos hcond]
        simp [List.filter, hb, List.getLast?_append]
      · have hb : (r.datasource == ds && r.packageName == pkg) = false := by
          rcases not_and_or.mp hmatch with hh | hh <;>
            simp [beq_eq_false_iff_ne.mpr hh]
        have hcond : ¬ (ds = r.datasource ∧ pkg = r.packageName) := fun hc =>
          hmatch ⟨hc.1.symm, hc.2.symm⟩
        rw [if_neg hcond]
        simp [List.filter, hb, ih]

/-! ## C8: report() on empty collectors -/

/-- C8: `report()` on an empty abandonment collector emits zero log calls,
while on each of the timing-based and HTTP-based collectors it emits
exactly one log call carrying the all-zero (or empty) aggregate: the
lookup collector one debug call with the empty mapping, the package-cache
collector one debug call with both buckets all-zero, and the HTTP stats
collector one debug call with no hosts and zero requests.  The
per-collector asymmetry (nothing vs. one all-zero report) is fixed
behavior. -/
theorem claim_C8 :
    AbandonedPackageStats.reportCalls [] = [] ∧
    (AbandonedPackageStats.reportCalls []).length = 0 ∧
    LookupStats.reportCalls [] = [(.debug, "Lookup statistics", [])] ∧
    (LookupStats.reportCalls []).length = 1 ∧
    PackageCacheStats.reportCalls ([], []) =
      [(.debug, "Package cache statistics",
        ({ avgMs := 0, count := 0, maxMs := 0, medianMs := 0, totalMs := 0 },
         { avgMs := 0, count := 0, maxMs := 0, medianMs := 0, totalMs := 0 }))] ∧
    (PackageCacheStats.reportCalls ([], [])).length = 1 ∧
    HttpStats.reportCalls [] = [(.debug, "HTTP statistics", .summary [] 0)] ∧
    (HttpStats.reportCalls []).length = 1 := by
  refine ⟨rfl, rfl, rfl, rfl, rfl, rfl, rfl, rfl⟩

/-! ## C3: pagination failure mid-sequence -/

/-- C3: when the pages before the failure all succeed (each advertising a
continuation) and a later fetch fails, the paginated call resolves — no
exception reaches the caller — with the concatenation of the items of the
successfully fetched pages in fetch order, and exactly one pagination
error is logged. -/
theorem claim_C3 {α : Type} (pages : List (List α)) (h : pages ≠ []) :
    paginateChain ((pages.map (fun items => PageResponse.ok items true)) ++
        [PageResponse.fail]) = .ok (pages.flatten, 1) := by
  induction pages with
  | nil => exact absurd rfl h
  | cons p ps ih =>
    cases ps with
    | nil => simp [paginateChain]
    | cons q qs =>
      have hrec := ih (by simp)
      simp only [List.map_cons, List.cons_append] at hrec ⊢
      simp only [List.flatten_cons]
      rw [paginateChain.eq_def]
      simp only [if_true]
      rw [hrec]
      simp

/-- Witness for C3 at the in-tree test's page contents
(`["a"]`, `["b","c"]`, `["d"]`, then a failing fetch). -/
theorem claim_C3_witness :
    paginateChain ([PageResponse.ok ["a"] true, PageResponse.ok ["b", "c"] true,
        PageResponse.ok ["d"] true, PageResponse.fail]) =
      .ok (["a", "b", "c", "d"], 1) := by
  have h := claim_C3 (α := String) [["a"], ["b", "c"], ["d"]] (by simp)
  simpa using h

/-! ## C4: conflict retry policy -/

/-- Matching conflicts consume one attempt each; a success within the
retry budget is the final result. -/
theorem attemptMutating_conflicts_then_success (msg : String)
    (hmsg : isResourceLockMessage msg = true) :
    ∀ (k retries : Nat), k ≤ retries →
      ∀ (st : Nat) (rest : List GitlabResponse),
        attemptMutating (List.replicate k (.conflict msg) ++ .success st :: rest) retries =
          (.ok st, k + 1) := by
  intro k
  induction k with
  | zero =>
    intro retries _ st rest
    simp [attemptMutating]
  | succ n ih =>
    intro retries hk st rest
    cases retries with
    | zero => exact absurd hk (by simp)
    | succ m =>
      have hrec := ih m (Nat.le_of_succ_le_succ hk) st rest
      have hc : isResourceLockMessage msg = true ∧ 0 < m + 1 := ⟨hmsg, Nat.succ_pos m⟩
      simp only [List.replicate_succ, List.cons_append, attemptMutating,
        if_pos hc, Nat.add_sub_cancel, List.append_eq]
      rw [hrec]

/-- The attempt counter is bounded by the retry budget plus one. -/
theorem attemptMutating_le (responses : List GitlabResponse) :
    ∀ retries : Nat, (attemptMutating responses retries).2 ≤ retries + 1 := by
  induction responses with
  | nil => intro retries; simp [attemptMutating]
  | cons r rest ih =>
    intro retries
    cases r with
    | success st => simp [attemptMutating]
    | clientError st => simp [attemptMutating]
    | conflict msg =>
      by_cases hc : isResourceLockMessage msg = true ∧ 0 < retries
      · have hih := ih (retries - 1)
        simp only [attemptMutating, if_pos hc]
        omega
      · simp only [attemptMutating, if_neg hc]
        omega

/-- C4: a mutating request failing with a matching transient-lock conflict
is retried up to two additional times: `k ≤ 2` matching conflicts followed
by a success resolve with that success after `k + 1` attempts; three
matching conflicts surface the conflict error after exactly three
attempts; a conflict whose message does not match is surfaced immediately
after one attempt; and no call ever performs more than three attempts. -/
theorem claim_C4 :
    (∀ (k : Nat) (msg : String) (st : Nat) (rest : List GitlabResponse),
      isResourceLockMessage msg = true → k ≤ 2 →
      postJsonMutating (List.replicate k (.conflict msg) ++ .success st :: rest) =
        (.ok st, k + 1)) ∧
    (∀ (m1 m2 m3 : String) (rest : List GitlabResponse),
      isResourceLockMessage m1 = true → isResourceLockMessage m2 = true →
      isResourceLockMessage m3 = true →
      postJsonMutating (.conflict m1 :: .conflict m2 :: .conflict m3 :: rest) =
        (.error (.conflictSurfaced m3), 3)) ∧
    (∀ (msg : String) (rest : List GitlabResponse),
      isResourceLockMessage msg = false →
      postJsonMutating (.conflict msg :: rest) =
        (.error (.conflictSurfaced msg), 1)) ∧
    (∀ responses : List GitlabResponse, (postJsonMutating responses).2 ≤ 3) := by
  refine ⟨?_, ?_, ?_, ?_⟩
  · intro k msg st rest hmsg hk
    exact attemptMutating_conflicts_then_success msg hmsg k 2 hk st rest
  · intro m1 m2 m3 rest h1 h2 h3
    have hc1 : isResourceLockMessage m1 = true ∧ 0 < 2 := ⟨h1, by decide⟩
    have hc2 : isResourceLockMessage m2 = true ∧ 0 < 2 - 1 := ⟨h2, by decide⟩
    have hc3 : ¬ (isResourceLockMessage m3 = true ∧ 0 < 2 - 1 - 1) := fun hc =>
      absurd hc.2 (by decide)
    simp only [postJsonMutating, attemptMutating, if_pos hc1, if_pos hc2, if_neg hc3]
  · intro msg rest hmsg
    have hno : ¬ (isResourceLockMessage msg = true ∧ 0 < 2) := fun hc =>
      Bool.false_ne_true (hmsg ▸ hc.1)
    simp only [postJsonMutating, attemptMutating, if_neg hno]
  · intro responses
    exact attemptMutating_le responses 2

/-- Witness for C4 at the in-tree test's messages. -/
theorem claim_C4_witness :
    postJsonMutating [.conflict "409 Conflict: Resource lock", .success 200] =
      (.ok 200, 2) ∧
    postJsonMutating [.conflict "409 Conflict: Resource lock",
        .conflict "409 Conflict: Resource lock",
        .conflict "409 Conflict: Resource lock"] =
      (.error (.conflictSurfaced "409 Conflict: Resource lock"), 3) ∧
    postJsonMutating [.conflict "Other reason", .success 200] =
      (.error (.conflictSurfaced "Other reason"), 1) := by
  have h1 := claim_C4.1 1 "409 Conflict: Resource lock" 200 [] (by decide) (by decide)
  have h2 := claim_C4.2.1 "409 Conflict: Resource lock" "409 Conflict: Resource lock"
    "409 Conflict: Resource lock" [] (by decide) (by decide) (by decide)
  have h3 := claim_C4.2.2.1 "Other reason" [.success 200] (by decide)
  exact ⟨by simpa using h1, h2, h3⟩

/-! ## C5: outcome classification -/

/-- C5: transport failures, 5xx responses, and structurally malformed
bodies of successful responses all classify as the external-host failure
kind, while 4xx responses other than the handled conflict status surface
verbatim with their status and body — a distinct failure value, never the
external-host kind. -/
theorem claim_C5 :
    (∀ (jsonValid : String → Bool) (code : String),
      classifyOutcome jsonValid (.transportError code) = .error .externalHost) ∧
    (∀ (jsonValid : String → Bool) (st : Nat) (body : String),
      500 ≤ st → st < 600 →
      classifyOutcome jsonValid (.response st body) = .error .externalHost) ∧
    (∀ (jsonValid : String → Bool) (st : Nat) (body : String),
      400 ≤ st → st < 500 → st ≠ 409 →
      classifyOutcome jsonValid (.response st body) = .error (.httpStatus st body) ∧
      RequestFailure.httpStatus st body ≠ .externalHost) ∧
    (∀ (jsonValid : String → Bool) (st : Nat) (body : String),
      st < 400 → jsonValid body = false →
      classifyOutcome jsonValid (.response st body) = .error .externalHost) := by
  refine ⟨fun _ _ => rfl, ?_, ?_, ?_⟩
  · intro jv st body h5 h6
    simp [classifyOutcome, h5, h6]
  · intro jv st body h4 h5 _
    have hno5 : ¬ (500 ≤ st ∧ st < 600) := fun hc => by omega
    refine ⟨?_, by simp⟩
    simp [classifyOutcome, hno5, h4]
  · intro jv st body hlt hjson
    have hno5 : ¬ (500 ≤ st ∧ st < 600) := fun hc => by omega
    have hno4 : ¬ (400 ≤ st) := by omega
    simp [classifyOutcome, hno5, hno4, hjson]

/-- Witness for C5 at the in-tree test's cases: `EAI_AGAIN`, 500, 403, 404,
and a 200 response whose body fails to parse. -/
theorem claim_C5_witness :
    classifyOutcome (fun _ => false) (.transportError "EAI_AGAIN") =
      .error .externalHost ∧
    classifyOutcome (fun _ => false) (.response 500 "") = .error .externalHost ∧
    classifyOutcome (fun _ => false) (.response 403 "Forbidden") =
      .error (.httpStatus 403 "Forbidden") ∧
    classifyOutcome (fun _ => false) (.response 404 "Not Found") =
      .error (.httpStatus 404 "Not Found") ∧
    classifyOutcome (fun _ => false) (.response 200 "\x7b\x7b") = .error .externalHost := by
  refine ⟨claim_C5.1 (fun _ => false) "EAI_AGAIN",
    claim_C5.2.1 (fun _ => false) 500 "" (by decide) (by decide),
    (claim_C5.2.2.1 (fun _ => false) 403 "Forbidden" (by decide) (by decide) (by decide)).1,
    (claim_C5.2.2.1 (fun _ => false) 404 "Not Found" (by decide) (by decide) (by decide)).1,
    claim_C5.2.2.2 (fun _ => false) 200 "\x7b\x7b" (by decide) rfl⟩

/-! ## C9: bundler updateArtifacts retry bound -/

/-- The number of exec attempts of one `updateArtifacts` call is bounded by
`recursionLimit + 1`. -/
theorem updateArtifacts_le (env : BundlerEnv) :
    ∀ (limit : Nat) (ua : BundlerUpdateArtifact) (idx : Nat),
      (updateArtifactsModel env ua limit idx).2 ≤ limit + 1 := by
  intro limit
  induction limit with
  | zero =>
    intro ua idx
    rw [updateArtifactsModel.eq_def]
    dsimp only
    split
    · simp
    · split
      · simp
      · split
        · split <;> simp
        · split
          · simp
          · split
            · simp
            · split
              · simp
              · split
                · next h => exact absurd h.1 (by simp)
                · simp
  | succ n ih =>
    intro ua idx
    rw [updateArtifactsModel.eq_def]
    dsimp only
    split
    · simp
    · split
      · simp
      · split
        · split <;> simp
        · split
          · simp
          · split
            · simp
            · split
              · simp
              · split
                · simp only [Nat.add_sub_cancel]
                  exact Nat.succ_le_succ (ih _ _)
                · simp

/-- In lock-file-maintenance mode no reattempt ever happens: at most one
exec attempt. -/
theorem updateArtifacts_maintenance (env : BundlerEnv) (ua : BundlerUpdateArtifact)
    (limit idx : Nat) (hm : ua.config.isLockFileMaintenance = true) :
    (updateArtifactsModel env ua limit idx).2 ≤ 1 := by
  rw [updateArtifactsModel.eq_def]
  dsimp only
  split
  · simp
  · split
    · simp
    · split
      · split <;> simp
      · split
        · simp
        · split
          · simp
          · split
            · simp
            · split
              · next h =>
                rw [hm] at h
                exact absurd h.2.2 (by simp)
              · simp

/-- When the failing output resolves no package names beyond the updated
dependencies, no reattempt happens: at most one exec attempt. -/
theorem updateArtifacts_no_matches (env : BundlerEnv) (ua : BundlerUpdateArtifact)
    (limit idx : Nat) (err : ExecError)
    (hfail : env.execResult idx = ExecOutcome.fail err)
    (hres : (getResolvedPackages (err.stdout ++ "\n" ++ err.stderr)).filter
      (fun depName =>
        !((ua.updatedDeps.filter nonEmptyStringAndNotWhitespace).contains depName)) = []) :
    (updateArtifactsModel env ua limit idx).2 ≤ 1 := by
  rw [updateArtifactsModel.eq_def]
  dsimp only
  split
  · simp
  · split
    · simp
    · split
      · split <;> simp
      · next err2 heq =>
        rw [hfail] at heq
        injection heq with hh
        subst hh
        split
        · simp
        · split
          · simp
          · split
            · simp
            · split
              · next h => exact absurd hres h.2.1
              · simp

/-- C9: every `updateArtifacts` call terminates within a bounded number of
attempts: the total number of exec attempts never exceeds
`recursionLimit + 1`; with `recursionLimit = 0`, in lock-file-maintenance
mode, or when the failure output resolves no package names beyond
`updatedDeps`, no reattempt happens at all (at most one attempt). -/
theorem claim_C9 :
    (∀ (env : BundlerEnv) (ua : BundlerUpdateArtifact) (limit idx : Nat),
      (updateArtifactsModel env ua limit idx).2 ≤ limit + 1) ∧
    (∀ (env : BundlerEnv) (ua : BundlerUpdateArtifact) (limit idx : Nat),
      ua.config.isLockFileMaintenance = true →
      (updateArtifactsModel env ua limit idx).2 ≤ 1) ∧
    (∀ (env : BundlerEnv) (ua : BundlerUpdateArtifact) (idx : Nat),
      (updateArtifactsModel env ua 0 idx).2 ≤ 1) ∧
    (∀ (env : BundlerEnv) (ua : BundlerUpdateArtifact) (limit idx : Nat) (err : ExecError),
      env.execResult idx = ExecOutcome.fail err →
      (getResolvedPackages (err.stdout ++ "\n" ++ err.stderr)).filter
        (fun depName =>
          !((ua.updatedDeps.filter nonEmptyStringAndNotWhitespace).contains depName)) = [] →
      (updateArtifactsModel env ua limit idx).2 ≤ 1) := by
  refine ⟨fun env ua limit idx => updateArtifacts_le env limit ua idx,
    fun env ua limit idx hm => updateArtifacts_maintenance env ua limit idx hm,
    fun env ua idx => updateArtifacts_le env 0 ua idx,
    fun env ua limit idx err hfail hres =>
      updateArtifacts_no_matches env ua limit idx err hfail hres⟩

/-- Witness for C9 at a concrete environment whose exec always fails with
an output resolving no packages. -/
theorem claim_C9_witness :
    (updateArtifactsModel
      ⟨none, some "lock", fun _ => ExecOutcome.fail ⟨"boom", "", ""⟩, true, "new"⟩
      ⟨"Gemfile", [], "", ⟨true⟩⟩ 10 0).2 ≤ 1 ∧
    (updateArtifactsModel
      ⟨none, some "lock", fun _ => ExecOutcome.fail ⟨"boom", "", ""⟩, true, "new"⟩
      ⟨"Gemfile", [], "", ⟨false⟩⟩ 10 0).2 ≤ 10 + 1 ∧
    (updateArtifactsModel
      ⟨none, some "lock", fun _ => ExecOutcome.fail ⟨"boom", "", ""⟩, true, "new"⟩
      ⟨"Gemfile", [], "", ⟨false⟩⟩ 10 0).2 ≤ 1 := by
  refine ⟨claim_C9.2.1 _ _ 10 0 rfl, claim_C9.1 _ _ 10 0,
    claim_C9.2.2.2 _ _ 10 0 ⟨"boom", "", ""⟩ rfl (by decide)⟩
